import Mathlib

/-!
# Control plane of the cgroup packet filter (`Problem 2/main.go`)

A shallow embedding of the Go control plane: the fixed-width name buffer
(`strToCharArr`), the two configuration writes (`updateMaps`), the mount-table
scan (`detectCgroupPath`), the supervision loop (`handleSignals`,
`printDropCount`) and the start-up / teardown sequence of `main`.

Go strings are byte sequences; a byte is a `Nat` below 256.  Everything the
program does to the outside world is recorded as an `Event` of a trace, and
everything the outside world answers (kernel verdicts, the mount table, the
events arriving at the `select`) is an explicit input.
-/

deriving instance DecidableEq for Except

namespace PacketFilter

/-- A Go `string`: a sequence of bytes. -/
abbrev GoString := List Nat

/-- UTF-8 encoding of one code point, as the Go compiler stores string literals. -/
def utf8Encode (c : Nat) : List Nat :=
  if c < 0x80 then [c]
  else if c < 0x800 then [0xC0 + c / 64, 0x80 + c % 64]
  else if c < 0x10000 then [0xE0 + c / 4096, 0x80 + c / 64 % 64, 0x80 + c % 64]
  else [0xF0 + c / 262144, 0x80 + c / 4096 % 64, 0x80 + c / 64 % 64, 0x80 + c % 64]

/-- The bytes of a string literal. -/
def goString (s : String) : GoString :=
  s.toList.flatMap (fun c => utf8Encode c.toNat)

/-! ## `strToCharArr` -/

/-- Go builtin `copy(dst, src)`: copies `min (len dst) (len src)` elements to the
front of `dst`; returns the new contents of `dst` and the number copied. -/
def copy (dst src : List Nat) : List Nat × Nat :=
  let n := min dst.length src.length
  (src.take n ++ dst.drop n, n)

/-- The Go source:
`var arr [16]byte; copy(arr[:], s); return arr`.
A fresh `[16]byte` is sixteen zero bytes. -/
def strToCharArr (s : GoString) : List Nat :=
  let arr : List Nat := List.replicate 16 0
  (copy arr s).1

/-! ## `detectCgroupPath` -/

/-- Go `strings.Split(s, sep)` for a separator of one byte, the way the program
calls it: the substrings between the occurrences of `sep`; a string without
`sep` (the empty string included) gives one field. -/
def Split : GoString → Nat → List GoString
  | [], _ => [[]]
  | c :: cs, sep =>
    if c = sep then [] :: Split cs sep
    else
      match Split cs sep with
      | [] => [[c]]
      | f :: fs => (c :: f) :: fs

/-- The literal `"cgroup2"`. -/
def cgroup2 : GoString := goString "cgroup2"

/-- The error text of `errors.New("cgroup2 not mounted")`. -/
def notMounted : String := "cgroup2 not mounted"

/-- The `for scanner.Scan()` loop of `detectCgroupPath` over the lines the
scanner yields, in file order. The result is the Go pair `(string, error)`,
`none` standing for a `nil` error. -/
def scanLoop : List GoString → GoString × Option String
  | [] => ([], some notMounted)
  | line :: rest =>
    let fields := Split line 32
    if h : 3 ≤ fields.length then
      if fields[2] = cgroup2 then (fields[1], none)
      else scanLoop rest
    else scanLoop rest

/-- Go `detectCgroupPath`. Its input is what `os.Open("/proc/mounts")` and the
line scanner give: an error of `Open`, or the lines `scanner.Text()` yields, in
order, until `scanner.Scan()` is false (the program does not look at
`scanner.Err()`). -/
def detectCgroupPath (procMounts : Except String (List GoString)) : GoString × Option String :=
  match procMounts with
  | .error err => ([], some err)
  | .ok lines => scanLoop lines

/-! ## Kernel maps and the loaded objects -/

/-- A kernel map seen through its handle: what a `Lookup` of each key returns
at this moment (a value, or the error of the lookup). -/
structure Map (V : Type) where
  Lookup : Nat → Except String V

/-- Go `m.Update(key, value, ebpf.UpdateAny)`: the kernel either rejects the
write (`verdict = some err`, the map unchanged) or stores `value` under `key`,
creating or overwriting the entry. -/
def Map.Update {V : Type} (m : Map V) (key : Nat) (value : V) (verdict : Option String) :
    Except String (Map V) :=
  match verdict with
  | some err => .error err
  | none => .ok ⟨fun k => if k = key then .ok value else m.Lookup k⟩

/-- Modelled from the spec: the generated `packetFilterObjects` struct (its
declaration is not among the sources), holding the three named maps of the
kernel-side program: the port map (`uint32` values), the process-name map
(`[16]byte` values) and the drop counter (`uint64` values). -/
structure packetFilterObjects where
  PortMap : Map Nat
  ProcessNameMap : Map (List Nat)
  DropCounter : Map Nat

/-! ## Traces -/

/-- The messages the program logs, one constructor per format string. -/
inductive LogMsg
  | failedToSetRlimit (err : String)
  | loadingObjects (err : String)
  | updatingPortMap (err : String)
  | updatingProcessNameMap (err : String)
  | detectingCgroupPath (err : String)
  | couldNotAttach (err : String)
  | attached (cgroupPath : GoString)
  | pressCtrlC
  | receivedSignal
  | errorReadingDropCounter (err : String)
  | dropped (dropCount : Nat)
  deriving DecidableEq, Repr

/-- What the process does to the outside world, in program order. -/
inductive Event
  | removeMemlock
  | loadObjects
  | portMapUpdate (key value : Nat)
  | processNameMapUpdate (key : Nat) (value : List Nat)
  | openProcMounts
  | closeProcMounts
  | attachCgroup (path : GoString)
  | newTicker (seconds : Nat)
  | signalNotify
  | dropCounterLookup (key : Nat)
  | tickerStop
  | linkClose
  | objsClose
  | printf (msg : LogMsg)
  | fatalf (msg : LogMsg)
  deriving DecidableEq, Repr

/-- A run of a function that may end the process: the events so far, and the
function's result, `none` when `log.Fatalf` ended the process inside it. -/
structure Run (α : Type) where
  trace : List Event
  result : Option α

/-! ## `updateMaps` -/

/-- Go `uint32(x)` on an unsigned machine word. -/
def toUint32 (x : Nat) : Nat := x % 2 ^ 32

/-- Go `updateMaps`. `portVerdict` and `nameVerdict` are the kernel verdicts on
the two writes. The result is the state of the objects after both writes. -/
def updateMaps (objs : packetFilterObjects) (portNum : Nat) (processName : GoString)
    (portVerdict nameVerdict : Option String) : Run packetFilterObjects :=
  let portKey := toUint32 0
  let portValue := toUint32 portNum
  match objs.PortMap.Update portKey portValue portVerdict with
  | .error err =>
    ⟨[.portMapUpdate portKey portValue, .fatalf (.updatingPortMap err)], none⟩
  | .ok portMap =>
    let processKey := toUint32 0
    let processValue := strToCharArr processName
    match objs.ProcessNameMap.Update processKey processValue nameVerdict with
    | .error err =>
      ⟨[.portMapUpdate portKey portValue, .processNameMapUpdate processKey processValue,
        .fatalf (.updatingProcessNameMap err)], none⟩
    | .ok processNameMap =>
      ⟨[.portMapUpdate portKey portValue, .processNameMapUpdate processKey processValue],
        some { objs with PortMap := portMap, ProcessNameMap := processNameMap }⟩

/-! ## The supervision loop -/

/-- Go `printDropCount`: one lookup of key 0 in the drop counter; the value is
logged, or the error is logged and the function returns. -/
def printDropCount (objs : packetFilterObjects) : List Event :=
  let key := toUint32 0
  match objs.DropCounter.Lookup key with
  | .error err => [.dropCounterLookup key, .printf (.errorReadingDropCounter err)]
  | .ok dropCount => [.dropCounterLookup key, .printf (.dropped dropCount)]

/-- An event taken at the `select` of `handleSignals`: the ticker fired (the
kernel-side filter owns the drop counter, so the tick carries the counter map
as it stands then), or a signal arrived on `stop`. -/
inductive SelectEvent
  | tick (dropCounter : Map Nat)
  | stop

/-- A run of the supervision loop over the events seen so far: its events, and
whether `handleSignals` has returned. -/
structure LoopRun where
  trace : List Event
  returned : Bool

/-- The `for { select { ... } }` of `handleSignals`. -/
def selectLoop (objs : packetFilterObjects) : List SelectEvent → LoopRun
  | [] => ⟨[], false⟩
  | .tick dropCounter :: rest =>
    let next := selectLoop objs rest
    ⟨printDropCount { objs with DropCounter := dropCounter } ++ next.trace, next.returned⟩
  | .stop :: _ => ⟨[.printf .receivedSignal], true⟩

/-- Go `handleSignals`: the ticker and the signal channel are set up, the loop
runs, and the deferred `ticker.Stop()` runs when the function returns. -/
def handleSignals (objs : packetFilterObjects) (events : List SelectEvent) : LoopRun :=
  let loop := selectLoop objs events
  ⟨[.newTicker 10, .signalNotify] ++ loop.trace ++ (if loop.returned then [.tickerStop] else []),
    loop.returned⟩

/-! ## `main` -/

/-- Everything the outside world answers during one run of `main`. -/
structure World where
  /-- The error of `rlimit.RemoveMemlock()`, if any. -/
  removeMemlock : Option String
  /-- What `loadPacketFilterObjects` gives: an error, or the loaded objects. -/
  loadObjects : Except String packetFilterObjects
  /-- The kernel verdict on the write to the port map. -/
  portMapUpdate : Option String
  /-- The kernel verdict on the write to the process-name map. -/
  processNameMapUpdate : Option String
  /-- What opening and reading `/proc/mounts` gives. -/
  procMounts : Except String (List GoString)
  /-- The error of `link.AttachCgroup`, if any. -/
  attachCgroup : Option String
  /-- The events arriving at the `select` of the supervision loop so far. -/
  selectEvents : List SelectEvent

/-- The events of one call of `detectCgroupPath`: the open, and the deferred
close when the open succeeded. -/
def detectCgroupPathTrace (procMounts : Except String (List GoString)) : List Event :=
  match procMounts with
  | .error _ => [.openProcMounts]
  | .ok _ => [.openProcMounts, .closeProcMounts]

/-- A run of `main`: the events, and the exit status: `some 0` when `main`
returned, `some 1` when `log.Fatalf` ended the process, `none` while the
supervision loop is still waiting. -/
structure MainRun where
  trace : List Event
  exit : Option Nat
  deriving DecidableEq

/-- Go `main`, after flag parsing gave `portNum` and `processName`. Deferred
calls are pushed on `deferred` and run, last pushed first, only when `main`
returns; `log.Fatalf` exits without running them. -/
def main (w : World) (portNum : Nat) (processName : GoString) : MainRun :=
  let t : List Event := [.removeMemlock]
  match w.removeMemlock with
  | some err => ⟨t ++ [.fatalf (.failedToSetRlimit err)], some 1⟩
  | none =>
  let t := t ++ [.loadObjects]
  match w.loadObjects with
  | .error err => ⟨t ++ [.fatalf (.loadingObjects err)], some 1⟩
  | .ok objs =>
  let deferred : List Event := [.objsClose]
  let u := updateMaps objs portNum processName w.portMapUpdate w.processNameMapUpdate
  let t := t ++ u.trace
  match u.result with
  | none => ⟨t, some 1⟩
  | some objs =>
  let t := t ++ detectCgroupPathTrace w.procMounts
  match detectCgroupPath w.procMounts with
  | (_, some err) => ⟨t ++ [.fatalf (.detectingCgroupPath err)], some 1⟩
  | (cgroupPath, none) =>
  let t := t ++ [.attachCgroup cgroupPath]
  match w.attachCgroup with
  | some err => ⟨t ++ [.fatalf (.couldNotAttach err)], some 1⟩
  | none =>
  let deferred : List Event := .linkClose :: deferred
  let t := t ++ [.printf (.attached cgroupPath), .printf .pressCtrlC]
  let loop := handleSignals objs w.selectEvents
  let t := t ++ loop.trace
  if loop.returned then ⟨t ++ deferred, some 0⟩ else ⟨t, none⟩

/-! ## Vocabulary of the properties -/

/-- Field number `i` (counted from 0) of a mount-table line as the program cuts
it: the pieces between single space bytes. -/
def fieldAt (line : GoString) (i : Nat) : Option GoString := (Split line 32)[i]?

/-- ASCII white space, as Go `strings.Fields` sees it. -/
def isSpaceByte (c : Nat) : Bool :=
  c == 32 || c == 9 || c == 10 || c == 11 || c == 12 || c == 13

/-- The scan behind `whitespaceFields`; `cur` is the field being read, reversed. -/
def whitespaceFieldsAux : GoString → GoString → List GoString
  | cur, [] => if cur = [] then [] else [cur.reverse]
  | cur, c :: cs =>
    if isSpaceByte c then
      (if cur = [] then whitespaceFieldsAux [] cs else cur.reverse :: whitespaceFieldsAux [] cs)
    else whitespaceFieldsAux (c :: cur) cs

/-- The reading "a sequence of whitespace-separated fields per line": the
maximal runs of bytes that are not white space (Go `strings.Fields` on ASCII).
The program does not call it; it is what the interface description says. -/
def whitespaceFields (line : GoString) : List GoString := whitespaceFieldsAux [] line

/-- Fields joined by single space bytes, the way the kernel writes a line of
`/proc/mounts`. -/
def joinFields : List GoString → GoString
  | [] => []
  | [f] => f
  | f :: g :: gs => f ++ 32 :: joinFields (g :: gs)

/-- The event is a tick of the timer. -/
def isTick : SelectEvent → Bool
  | .tick _ => true
  | .stop => false

/-- The event is a termination signal. -/
def isStop : SelectEvent → Bool
  | .tick _ => false
  | .stop => true

/-- What the loop does for one event that is a tick: one call of
`printDropCount` on the counter as it stands at that tick. -/
def tickSample (objs : packetFilterObjects) : SelectEvent → List Event
  | .tick dropCounter => printDropCount { objs with DropCounter := dropCounter }
  | .stop => []

/-- The event is a sample of the drop counter. -/
def isLookup : Event → Bool
  | .dropCounterLookup _ => true
  | _ => false

/-- The event releases the attachment handle or the loader-held handles. -/
def isRelease : Event → Bool
  | .linkClose => true
  | .objsClose => true
  | _ => false

/-- The drop counts a trace reports, in order. -/
def reported : List Event → List Nat
  | [] => []
  | .printf (.dropped dropCount) :: rest => dropCount :: reported rest
  | _ :: rest => reported rest

/-- All five start-up stages before the attach succeeded: memlock removal,
object load, both configuration writes, cgroup path resolution. -/
def startupOk (w : World) : Bool :=
  w.removeMemlock.isNone && w.loadObjects.isOk && w.portMapUpdate.isNone &&
    w.processNameMapUpdate.isNone && (detectCgroupPath w.procMounts).2.isNone

/-! ## Sample states -/

/-- A map without entries: every lookup fails. -/
def Map.empty {V : Type} : Map V := ⟨fun _ => .error "key does not exist"⟩

/-- A map whose key 0 holds `v` and that has no other entry. -/
def Map.single {V : Type} (v : V) : Map V :=
  ⟨fun k => if k = 0 then .ok v else .error "key does not exist"⟩

/-- Loaded objects whose configuration maps are still unwritten and whose drop
counter stands at zero. -/
def sampleObjects : packetFilterObjects := ⟨Map.empty, Map.empty, Map.single 0⟩

/-- A mount table: lines that do not match (another type, a single field, a
device named `cgroup2` of another type), the cgroup-v2 mount, and a later second
cgroup-v2 mount. -/
def sampleMounts : List GoString :=
  [goString "proc /proc proc rw,nosuid 0 0",
   goString "cgroup2",
   goString "cgroup2 /mnt tmpfs rw 0 0",
   goString "cgroup2 /sys/fs/cgroup cgroup2 rw 0 0",
   goString "none /run/cgroup2 cgroup2 rw 0 0"]

/-- A world in which every stage succeeds, the counter reads 5, 8, 8 on three
ticks, and then a signal arrives. -/
def sampleWorld : World :=
  { removeMemlock := none
    loadObjects := .ok sampleObjects
    portMapUpdate := none
    processNameMapUpdate := none
    procMounts := .ok sampleMounts
    attachCgroup := none
    selectEvents := [.tick (Map.single 5), .tick (Map.single 8), .tick (Map.single 8), .stop] }

/-- A line of `/proc/mounts` whose fields are separated by tabs. -/
def tabLine : GoString := goString "cgroup2\t/sys/fs/cgroup\tcgroup2\trw\t0\t0"

/-- A line of `/proc/mounts` whose first fields are separated by two spaces. -/
def wideLine : GoString := goString "cgroup2  /sys/fs/cgroup  cgroup2 rw 0 0"

/-! ## `strToCharArr` and `updateMaps` -/

theorem strToCharArr_eq (s : GoString) :
    strToCharArr s = s.take 16 ++ List.replicate (16 - s.length) 0 := by
  unfold strToCharArr copy
  simp only [List.length_replicate, List.drop_replicate]
  have h1 : List.take (min 16 s.length) s = List.take 16 s := by
    rcases Nat.le_total 16 s.length with h | h
    · rw [Nat.min_eq_left h]
    · rw [Nat.min_eq_right h, List.take_of_length_le (Nat.le_refl _), List.take_of_length_le h]
  have h2 : 16 - min 16 s.length = 16 - s.length := by omega
  rw [h1, h2]

theorem strToCharArr_length (s : GoString) : (strToCharArr s).length = 16 := by
  rw [strToCharArr_eq]; simp; omega

theorem updateMaps_result (objs : packetFilterObjects) (p : Nat) (n : GoString)
    (pv nv : Option String) (objs1 : packetFilterObjects)
    (h : (updateMaps objs p n pv nv).result = some objs1) :
    pv = none ∧ nv = none ∧ objs1.PortMap.Lookup 0 = .ok (p % 2 ^ 32) ∧
      objs1.ProcessNameMap.Lookup 0 = .ok (strToCharArr n) := by
  cases pv <;> cases nv <;> simp [updateMaps, Map.Update, toUint32] at h
  subst h
  simp

theorem updateMaps_accepted (objs : packetFilterObjects) (p : Nat) (n : GoString) :
    ∃ objs1, (updateMaps objs p n none none).result = some objs1 := by
  simp [updateMaps, Map.Update]

theorem updateMaps_trace_head (objs : packetFilterObjects) (p : Nat) (n : GoString)
    (pv nv : Option String) :
    (updateMaps objs p n pv nv).trace.head? = some (.portMapUpdate 0 (p % 2 ^ 32)) := by
  cases pv <;> cases nv <;> simp [updateMaps, Map.Update, toUint32]

/-- C1: for a port `p < 2^32` and a name `n` of at most 16 bytes, after
`updateMaps objs p n` succeeded, key 0 of the port map holds exactly `p` and
key 0 of the process-name map holds `strToCharArr n`, a buffer of 16 bytes that
is `n` followed by `16 - len n` zero bytes (sixteen zero bytes for the empty
name). -/
theorem updateMaps_publishes_config (objs : packetFilterObjects) (p : Nat) (n : GoString)
    (pv nv : Option String) (objs1 : packetFilterObjects)
    (hp : p < 2 ^ 32) (hn : n.length ≤ 16)
    (hok : (updateMaps objs p n pv nv).result = some objs1) :
    objs1.PortMap.Lookup 0 = .ok p ∧
    objs1.ProcessNameMap.Lookup 0 = .ok (strToCharArr n) ∧
    (strToCharArr n).length = 16 ∧
    strToCharArr n = n ++ List.replicate (16 - n.length) 0 ∧
    (strToCharArr n).take n.length = n ∧
    (strToCharArr n).drop n.length = List.replicate (16 - n.length) 0 ∧
    (n = [] → strToCharArr n = List.replicate 16 0) := by
  obtain ⟨_, _, h1, h2⟩ := updateMaps_result objs p n pv nv objs1 hok
  have h3 : strToCharArr n = n ++ List.replicate (16 - n.length) 0 := by
    rw [strToCharArr_eq, List.take_of_length_le hn]
  refine ⟨?_, h2, strToCharArr_length n, h3, ?_, ?_, ?_⟩
  · rw [h1, Nat.mod_eq_of_lt hp]
  · rw [h3]; simp
  · rw [h3]; simp
  · intro hnil; subst hnil; rw [h3]; rfl

theorem updateMaps_publishes_config_witness :
    4040 < 2 ^ 32 ∧ (goString "go").length ≤ 16 ∧
    ∃ objs1, (updateMaps sampleObjects 4040 (goString "go") none none).result = some objs1 ∧
      objs1.PortMap.Lookup 0 = .ok 4040 ∧
      objs1.ProcessNameMap.Lookup 0 = .ok [103, 111, 0, 0, 0, 0, 0, 0, 0, 0, 0, 0, 0, 0, 0, 0] :=
  ⟨by decide, by decide, _, rfl,
    (updateMaps_publishes_config sampleObjects 4040 (goString "go") none none _
      (by decide) (by decide) rfl).1,
    (updateMaps_publishes_config sampleObjects 4040 (goString "go") none none _
      (by decide) (by decide) rfl).2.1⟩

/-- C2: for a name `n` longer than 16 bytes, `strToCharArr n` is exactly the
first 16 bytes of `n` (16 bytes, nothing appended); it is the same buffer for
every name with the same first 16 bytes; and no name makes the publish fail:
`updateMaps` succeeds exactly when the kernel accepts both writes, and then the
process-name map holds the first 16 bytes of `n`. -/
theorem strToCharArr_truncates (n : GoString) (hn : 16 < n.length) :
    strToCharArr n = n.take 16 ∧
    (strToCharArr n).length = 16 ∧
    (∀ m : GoString, m.take 16 = n.take 16 → strToCharArr m = strToCharArr n) ∧
    (∀ (objs : packetFilterObjects) (p : Nat) (pv nv : Option String),
      (updateMaps objs p n pv nv).result.isSome = true ↔ pv = none ∧ nv = none) ∧
    (∀ (objs : packetFilterObjects) (p : Nat),
      ∃ objs1, (updateMaps objs p n none none).result = some objs1 ∧
        objs1.ProcessNameMap.Lookup 0 = .ok (n.take 16)) := by
  have h1 : strToCharArr n = n.take 16 := by
    rw [strToCharArr_eq, Nat.sub_eq_zero_of_le (Nat.le_of_lt hn)]; simp
  refine ⟨h1, strToCharArr_length n, ?_, ?_, ?_⟩
  · intro m hm
    have hlen : (m.take 16).length = 16 := by
      rw [hm, List.length_take]; omega
    have hm16 : 16 ≤ m.length := by
      rw [List.length_take] at hlen; omega
    rw [h1, strToCharArr_eq, Nat.sub_eq_zero_of_le hm16, hm]; simp
  · intro objs p pv nv
    cases pv <;> cases nv <;> simp [updateMaps, Map.Update]
  · intro objs p
    obtain ⟨objs1, h⟩ := updateMaps_accepted objs p n
    exact ⟨objs1, h, h1 ▸ (updateMaps_result objs p n none none objs1 h).2.2.2⟩

theorem strToCharArr_truncates_witness :
    16 < (goString "packet-filter-daemon").length ∧
    strToCharArr (goString "packet-filter-daemon") = goString "packet-filter-da" :=
  ⟨by decide, (strToCharArr_truncates (goString "packet-filter-daemon") (by decide)).1⟩

/-! ## `detectCgroupPath` -/

theorem scanLoop_cons (line : GoString) (rest : List GoString) :
    scanLoop (line :: rest) =
      if fieldAt line 2 = some cgroup2 then ((Split line 32).getD 1 [], none)
      else scanLoop rest := by
  unfold fieldAt
  rw [scanLoop]
  by_cases h : 3 ≤ (Split line 32).length
  · have h2 : (Split line 32)[2]? = some ((Split line 32)[2]) := List.getElem?_eq_getElem (by omega)
    have h1 : (Split line 32).getD 1 [] = (Split line 32)[1] := by
      rw [List.getD_eq_getElem?_getD, List.getElem?_eq_getElem (by omega)]; rfl
    simp only [h, dite_true, h2, Option.some.injEq, h1]
  · have h2 : (Split line 32)[2]? = none := List.getElem?_eq_none (by omega)
    simp [h, h2]

theorem fieldAt_path_of_type (line : GoString) (h : fieldAt line 2 = some cgroup2) :
    fieldAt line 1 = some ((Split line 32).getD 1 []) := by
  unfold fieldAt at *
  have hlen : 2 < (Split line 32).length := by
    by_contra hc
    rw [List.getElem?_eq_none (by omega)] at h
    exact Option.noConfusion h
  rw [List.getD_eq_getElem?_getD, List.getElem?_eq_getElem (by omega)]; rfl

theorem scanLoop_no_match (table : List GoString)
    (h : ∀ l ∈ table, fieldAt l 2 ≠ some cgroup2) : scanLoop table = ([], some notMounted) := by
  induction table with
  | nil => rfl
  | cons line rest ih =>
    rw [scanLoop_cons, if_neg (h line (by simp))]
    exact ih (fun l hl => h l (List.mem_cons_of_mem _ hl))

theorem scanLoop_first_match (pre : List GoString) (line : GoString) (post : List GoString)
    (hpre : ∀ l ∈ pre, fieldAt l 2 ≠ some cgroup2) (hline : fieldAt line 2 = some cgroup2) :
    scanLoop (pre ++ line :: post) = ((Split line 32).getD 1 [], none) := by
  induction pre with
  | nil => rw [List.nil_append, scanLoop_cons, if_pos hline]
  | cons l rest ih =>
    rw [List.cons_append, scanLoop_cons, if_neg (hpre l (by simp))]
    exact ih (fun x hx => hpre x (List.mem_cons_of_mem _ hx))

theorem exists_first_match (table : List GoString)
    (h : ∃ l ∈ table, fieldAt l 2 = some cgroup2) :
    ∃ pre line post, table = pre ++ line :: post ∧
      (∀ l ∈ pre, fieldAt l 2 ≠ some cgroup2) ∧ fieldAt line 2 = some cgroup2 := by
  induction table with
  | nil => obtain ⟨l, hl, _⟩ := h; simp at hl
  | cons a rest ih =>
    by_cases ha : fieldAt a 2 = some cgroup2
    · exact ⟨[], a, rest, rfl, by simp, ha⟩
    · obtain ⟨l, hl, hm⟩ := h
      have hrest : ∃ l ∈ rest, fieldAt l 2 = some cgroup2 := by
        rcases List.mem_cons.mp hl with e | e
        · exact absurd (e ▸ hm) ha
        · exact ⟨l, e, hm⟩
      obtain ⟨pre, line, post, e, hp, hm2⟩ := ih hrest
      refine ⟨a :: pre, line, post, by rw [e]; rfl, ?_, hm2⟩
      intro x hx
      rcases List.mem_cons.mp hx with e2 | e2
      · exact e2 ▸ ha
      · exact hp x e2

theorem Split_no_sep (s : GoString) (sep : Nat) (h : sep ∉ s) : Split s sep = [s] := by
  induction s with
  | nil => rfl
  | cons c cs ih =>
    simp only [List.mem_cons, not_or] at h
    have hc : c ≠ sep := fun e => h.1 e.symm
    simp [Split, hc, ih h.2]

theorem Split_joinFields (f : GoString) (fs : List GoString)
    (h : ∀ g ∈ f :: fs, 32 ∉ g) : Split (joinFields (f :: fs)) 32 = f :: fs := by
  induction fs generalizing f with
  | nil => exact Split_no_sep f 32 (h f (by simp))
  | cons g gs ih =>
    have hg := ih g (fun x hx => h x (List.mem_cons_of_mem _ hx))
    have hf : 32 ∉ f := h f (by simp)
    simp only [joinFields]
    clear h ih
    induction f with
    | nil => simp [Split, hg]
    | cons c cs ihc =>
      simp only [List.mem_cons, not_or] at hf
      have hc : c ≠ 32 := fun e => hf.1 e.symm
      simp [Split, hc, ihc hf.2]

/-- C3: for every mount table with at least one line whose third field is
`cgroup2`, `detectCgroupPath` returns, with a nil error, the second field of the
first such line in table order: the lines before it (none of which has the type
field `cgroup2`, lines of fewer than three fields among them) are skipped and
the lines after it are not looked at. -/
theorem detectCgroupPath_first_match (table : List GoString)
    (h : ∃ l ∈ table, fieldAt l 2 = some cgroup2) :
    (∃ pre line post path, table = pre ++ line :: post ∧
      (∀ l ∈ pre, fieldAt l 2 ≠ some cgroup2) ∧
      fieldAt line 2 = some cgroup2 ∧ fieldAt line 1 = some path ∧
      detectCgroupPath (.ok table) = (path, none) ∧
      ∀ later, detectCgroupPath (.ok (pre ++ line :: later)) = (path, none)) ∧
    (∀ l : GoString, (Split l 32).length < 3 → fieldAt l 2 ≠ some cgroup2) := by
  constructor
  · obtain ⟨pre, line, post, e, hpre, hline⟩ := exists_first_match table h
    refine ⟨pre, line, post, (Split line 32).getD 1 [], e, hpre, hline,
      fieldAt_path_of_type line hline, ?_, ?_⟩
    · rw [e]; exact scanLoop_first_match pre line post hpre hline
    · intro later; exact scanLoop_first_match pre line later hpre hline
  · intro l hl hc
    unfold fieldAt at hc
    rw [List.getElem?_eq_none (by omega)] at hc
    exact Option.noConfusion hc

theorem detectCgroupPath_first_match_witness :
    (∃ l ∈ sampleMounts, fieldAt l 2 = some cgroup2) ∧
    detectCgroupPath (.ok sampleMounts) = (goString "/sys/fs/cgroup", none) ∧
    ∃ pre line post path, sampleMounts = pre ++ line :: post ∧
      (∀ l ∈ pre, fieldAt l 2 ≠ some cgroup2) ∧
      fieldAt line 2 = some cgroup2 ∧ fieldAt line 1 = some path ∧
      detectCgroupPath (.ok sampleMounts) = (path, none) ∧
      ∀ later, detectCgroupPath (.ok (pre ++ line :: later)) = (path, none) :=
  ⟨⟨goString "cgroup2 /sys/fs/cgroup cgroup2 rw 0 0", by decide, by decide⟩, by decide,
    (detectCgroupPath_first_match sampleMounts
      ⟨goString "cgroup2 /sys/fs/cgroup cgroup2 rw 0 0", by decide, by decide⟩).1⟩

/-- C4: for every readable mount table, `detectCgroupPath` fails with the
"cgroup2 not mounted" error and the empty path if and only if no line of the
table has the type field `cgroup2`; it returns an error at all only in that
case, it fails on the empty table, and it does not fail when a matching line
exists. -/
theorem detectCgroupPath_notMounted_iff (table : List GoString) :
    (detectCgroupPath (.ok table) = ([], some notMounted) ↔
      ∀ l ∈ table, fieldAt l 2 ≠ some cgroup2) ∧
    ((detectCgroupPath (.ok table)).2 ≠ none ↔ ∀ l ∈ table, fieldAt l 2 ≠ some cgroup2) ∧
    ((∃ l ∈ table, fieldAt l 2 = some cgroup2) → (detectCgroupPath (.ok table)).2 = none) ∧
    detectCgroupPath (.ok []) = ([], some notMounted) := by
  have hpos : (∃ l ∈ table, fieldAt l 2 = some cgroup2) →
      (detectCgroupPath (.ok table)).2 = none := by
    intro h
    obtain ⟨pre, line, post, e, hpre, hline⟩ := exists_first_match table h
    show (scanLoop table).2 = none
    rw [e, scanLoop_first_match pre line post hpre hline]
  have hneg : (∀ l ∈ table, fieldAt l 2 ≠ some cgroup2) →
      detectCgroupPath (.ok table) = ([], some notMounted) := scanLoop_no_match table
  have hback : (detectCgroupPath (.ok table)).2 ≠ none →
      ∀ l ∈ table, fieldAt l 2 ≠ some cgroup2 := by
    intro hne l hl hm
    exact hne (hpos ⟨l, hl, hm⟩)
  refine ⟨⟨?_, hneg⟩, ⟨hback, ?_⟩, hpos, rfl⟩
  · intro heq
    apply hback
    rw [heq]
    exact fun hc => Option.noConfusion hc
  · intro hall
    rw [hneg hall]
    exact fun hc => Option.noConfusion hc

/-- C5, the claim as written fails: the tab-separated line and the line with
runs of two spaces both have `cgroup2` as third whitespace-separated field and
`/sys/fs/cgroup` as second, and `detectCgroupPath` matches neither: on a table
made of either line it reports that cgroup2 is not mounted. -/
theorem detectCgroupPath_whitespace_counterexample :
    ((whitespaceFields tabLine)[2]? = some cgroup2 ∧
      (whitespaceFields tabLine)[1]? = some (goString "/sys/fs/cgroup") ∧
      Split tabLine 32 = [tabLine] ∧
      detectCgroupPath (.ok [tabLine]) = ([], some notMounted)) ∧
    ((whitespaceFields wideLine)[2]? = some cgroup2 ∧
      (whitespaceFields wideLine)[1]? = some (goString "/sys/fs/cgroup") ∧
      fieldAt wideLine 2 = some (goString "/sys/fs/cgroup") ∧
      detectCgroupPath (.ok [wideLine]) = ([], some notMounted)) := by
  decide

/-- C5 amended: `detectCgroupPath` cuts every line at single space bytes
(`fieldAt`). A line whose third such field is `cgroup2` is matched and its
second such field is returned; any other line is passed over. A line without a
space byte is one field, and a line of fields joined by single spaces, none of
them containing a space, is cut into exactly those fields. -/
theorem detectCgroupPath_single_space_fields (line : GoString) (rest : List GoString) :
    (fieldAt line 2 = some cgroup2 →
      ∃ path, fieldAt line 1 = some path ∧
        detectCgroupPath (.ok (line :: rest)) = (path, none)) ∧
    (fieldAt line 2 ≠ some cgroup2 →
      detectCgroupPath (.ok (line :: rest)) = detectCgroupPath (.ok rest)) ∧
    (32 ∉ line → Split line 32 = [line]) ∧
    (∀ (f : GoString) (fs : List GoString), (∀ g ∈ f :: fs, 32 ∉ g) →
      line = joinFields (f :: fs) → Split line 32 = f :: fs) := by
  refine ⟨?_, ?_, Split_no_sep line 32, ?_⟩
  · intro h
    refine ⟨_, fieldAt_path_of_type line h, ?_⟩
    show scanLoop (line :: rest) = _
    rw [scanLoop_cons, if_pos h]
  · intro h
    show scanLoop (line :: rest) = scanLoop rest
    rw [scanLoop_cons, if_neg h]
  · intro f fs hf e
    rw [e]; exact Split_joinFields f fs hf

/-! ## The supervision loop -/

theorem printDropCount_countP (objs : packetFilterObjects) :
    (printDropCount objs).countP isLookup = 1 := by
  unfold printDropCount
  cases h : objs.DropCounter.Lookup (toUint32 0) <;> simp only [h] <;> rfl

theorem printDropCount_no_fatalf (objs : packetFilterObjects) (msg : LogMsg) :
    Event.fatalf msg ∉ printDropCount objs := by
  unfold printDropCount
  cases h : objs.DropCounter.Lookup (toUint32 0) <;> simp only [h] <;> simp

theorem selectLoop_spec (objs : packetFilterObjects) (events : List SelectEvent) :
    (selectLoop objs events).trace =
      (events.takeWhile isTick).flatMap (tickSample objs) ++
        (if events.any isStop = true then [Event.printf .receivedSignal] else []) ∧
    (selectLoop objs events).returned = events.any isStop ∧
    (selectLoop objs events).trace.countP isLookup = (events.takeWhile isTick).length ∧
    ∀ msg, Event.fatalf msg ∉ (selectLoop objs events).trace := by
  induction events with
  | nil => simp [selectLoop]
  | cons e rest ih =>
    obtain ⟨h1, h2, h3, h4⟩ := ih
    cases e with
    | tick dc =>
      refine ⟨?_, ?_, ?_, ?_⟩
      · simp only [selectLoop, h1, List.takeWhile_cons, isTick, if_true, List.flatMap_cons,
          tickSample, List.any_cons, isStop, Bool.false_or, List.append_assoc]
      · simp only [selectLoop, h2, List.any_cons, isStop, Bool.false_or]
      · simp only [selectLoop, List.countP_append, h3, printDropCount_countP,
          List.takeWhile_cons, isTick, if_true, List.length_cons]
        omega
      · intro msg hmem
        simp only [selectLoop, List.mem_append] at hmem
        rcases hmem with hm | hm
        · exact printDropCount_no_fatalf _ msg hm
        · exact h4 msg hm
    | stop =>
      refine ⟨?_, ?_, ?_, ?_⟩
      · simp [selectLoop, isTick, isStop]
      · simp [selectLoop, isStop]
      · simp [selectLoop, isTick, isLookup]
      · intro msg; simp [selectLoop]

theorem handleSignals_spec (objs : packetFilterObjects) (events : List SelectEvent) :
    (handleSignals objs events).trace =
      [Event.newTicker 10, Event.signalNotify] ++
        (events.takeWhile isTick).flatMap (tickSample objs) ++
        (if events.any isStop = true then [Event.printf .receivedSignal, Event.tickerStop]
          else []) ∧
    (handleSignals objs events).returned = events.any isStop ∧
    (handleSignals objs events).trace.countP isLookup = (events.takeWhile isTick).length ∧
    ∀ msg, Event.fatalf msg ∉ (handleSignals objs events).trace := by
  obtain ⟨h1, h2, h3, h4⟩ := selectLoop_spec objs events
  refine ⟨?_, h2, ?_, ?_⟩
  · unfold handleSignals
    simp only [h1, h2]
    cases List.any events isStop <;> simp
  · unfold handleSignals
    simp only [List.countP_append, h3, h2]
    cases List.any events isStop <;> simp [isLookup]
  · intro msg hmem
    unfold handleSignals at hmem
    simp only [List.mem_append] at hmem
    rcases hmem with (hm | hm) | hm
    · simp at hm
    · exact h4 msg hm
    · cases hr : (selectLoop objs events).returned <;> simp [hr] at hm

theorem takeWhile_isTick_append_stop (pre post : List SelectEvent)
    (h : ∀ e ∈ pre, isTick e = true) :
    (pre ++ SelectEvent.stop :: post).takeWhile isTick = pre ∧
    (pre ++ SelectEvent.stop :: post).any isStop = true := by
  induction pre with
  | nil => simp [isTick, isStop]
  | cons e rest ih =>
    obtain ⟨i1, i2⟩ := ih (fun x hx => h x (List.mem_cons_of_mem _ hx))
    have he : isTick e = true := h e (by simp)
    constructor
    · simp only [List.cons_append, List.takeWhile_cons, he, if_true, i1]
    · simp only [List.cons_append, List.any_cons, i2, Bool.or_true]

theorem takeWhile_isTick_all (events : List SelectEvent)
    (h : ∀ e ∈ events, isTick e = true) :
    events.takeWhile isTick = events ∧ events.any isStop = false := by
  induction events with
  | nil => simp
  | cons e rest ih =>
    obtain ⟨i1, i2⟩ := ih (fun x hx => h x (List.mem_cons_of_mem _ hx))
    have he : isTick e = true := h e (by simp)
    have hs : isStop e = false := by cases e <;> simp_all [isTick, isStop]
    constructor
    · simp only [List.takeWhile_cons, he, if_true, i1]
    · simp only [List.any_cons, hs, i2, Bool.or_false]

/-- C8: for every sequence of events at the `select` of `handleSignals`, the
loop samples the counter exactly once per tick that precedes the first
termination signal, returns exactly when a signal is in the sequence, and does
nothing after the first signal except log it and stop the ticker (the events
behind the signal do not change the run); on a sequence of ticks only, it
samples once per tick and has not returned. -/
theorem handleSignals_samples_until_stop (objs : packetFilterObjects)
    (events : List SelectEvent) :
    (handleSignals objs events).trace =
      [Event.newTicker 10, Event.signalNotify] ++
        (events.takeWhile isTick).flatMap (tickSample objs) ++
        (if events.any isStop = true then [Event.printf .receivedSignal, Event.tickerStop]
          else []) ∧
    (handleSignals objs events).returned = events.any isStop ∧
    (handleSignals objs events).trace.countP isLookup = (events.takeWhile isTick).length ∧
    (∀ pre post : List SelectEvent, (∀ e ∈ pre, isTick e = true) →
      events = pre ++ SelectEvent.stop :: post →
      (handleSignals objs events).returned = true ∧
      (handleSignals objs events).trace.countP isLookup = pre.length ∧
      (handleSignals objs events).trace =
        [Event.newTicker 10, Event.signalNotify] ++ pre.flatMap (tickSample objs) ++
          [Event.printf .receivedSignal, Event.tickerStop] ∧
      (handleSignals objs events).trace = (handleSignals objs (pre ++ [SelectEvent.stop])).trace) ∧
    ((∀ e ∈ events, isTick e = true) →
      (handleSignals objs events).returned = false ∧
      (handleSignals objs events).trace.countP isLookup = events.length) := by
  obtain ⟨h1, h2, h3, _⟩ := handleSignals_spec objs events
  refine ⟨h1, h2, h3, ?_, ?_⟩
  · intro pre post hpre e
    obtain ⟨t1, t2⟩ := takeWhile_isTick_append_stop pre post hpre
    obtain ⟨u1, u2⟩ := takeWhile_isTick_append_stop pre [] hpre
    obtain ⟨g1, _, _, _⟩ := handleSignals_spec objs (pre ++ [SelectEvent.stop])
    rw [e] at h1 h2 h3
    rw [t1, t2] at h1
    rw [t2] at h2
    rw [t1] at h3
    rw [u1, u2] at g1
    rw [e]
    exact ⟨h2, h3, by simpa using h1, by rw [h1, g1]⟩
  · intro hall
    obtain ⟨t1, t2⟩ := takeWhile_isTick_all events hall
    rw [t2] at h2
    rw [t1] at h3
    exact ⟨h2, h3⟩

/-- C9: when the lookup of key 0 in the drop counter gives `v`, `printDropCount`
reports exactly `v`; when it fails, the read error is logged, no drop count is
reported and the function returns, so that the loop goes on with the next event
whatever the lookup gave; no run of `handleSignals` ends the process. Counter
states 5, 8, 8 on three ticks are reported as 5, 8, 8, and a failed sample
between two good ones is passed over. -/
theorem printDropCount_reports (objs : packetFilterObjects) :
    (∀ v, objs.DropCounter.Lookup 0 = .ok v →
      printDropCount objs = [.dropCounterLookup 0, .printf (.dropped v)] ∧
      reported (printDropCount objs) = [v]) ∧
    (∀ err, objs.DropCounter.Lookup 0 = .error err →
      printDropCount objs = [.dropCounterLookup 0, .printf (.errorReadingDropCounter err)] ∧
      reported (printDropCount objs) = []) ∧
    (∀ (dc : Map Nat) (rest : List SelectEvent),
      (selectLoop objs (.tick dc :: rest)).trace =
        printDropCount { objs with DropCounter := dc } ++ (selectLoop objs rest).trace ∧
      (selectLoop objs (.tick dc :: rest)).returned = (selectLoop objs rest).returned ∧
      (handleSignals objs (.tick dc :: rest)).returned = (handleSignals objs rest).returned) ∧
    (∀ (events : List SelectEvent) (msg : LogMsg),
      Event.fatalf msg ∉ (handleSignals objs events).trace) ∧
    reported (handleSignals objs
      [.tick (Map.single 5), .tick (Map.single 8), .tick (Map.single 8)]).trace = [5, 8, 8] ∧
    reported (handleSignals objs
      [.tick (Map.single 5), .tick Map.empty, .tick (Map.single 8), .stop]).trace = [5, 8] ∧
    (handleSignals objs
      [.tick (Map.single 5), .tick Map.empty, .tick (Map.single 8), .stop]).returned = true := by
  refine ⟨?_, ?_, ?_, ?_, rfl, rfl, rfl⟩
  · intro v h
    have h0 : objs.DropCounter.Lookup (toUint32 0) = .ok v := h
    unfold printDropCount
    simp only [h0]
    exact ⟨rfl, rfl⟩
  · intro err h
    have h0 : objs.DropCounter.Lookup (toUint32 0) = .error err := h
    unfold printDropCount
    simp only [h0]
    exact ⟨rfl, rfl⟩
  · intro dc rest
    exact ⟨rfl, rfl, rfl⟩
  · intro events msg
    exact (handleSignals_spec objs events).2.2.2 msg

/-! ## `main` -/

theorem updateMaps_ok (objs : packetFilterObjects) (p : Nat) (n : GoString) :
    ∃ objs1, updateMaps objs p n none none =
      ⟨[.portMapUpdate 0 (p % 2 ^ 32), .processNameMapUpdate 0 (strToCharArr n)], some objs1⟩ :=
  ⟨_, rfl⟩

theorem detectCgroupPathTrace_ok (pm : Except String (List GoString))
    (h : (detectCgroupPath pm).2 = none) :
    detectCgroupPathTrace pm = [.openProcMounts, .closeProcMounts] := by
  cases pm with
  | error e => exact Option.noConfusion h
  | ok t => rfl

theorem attach_not_mem_detectTrace (pm : Except String (List GoString)) (path : GoString) :
    Event.attachCgroup path ∉ detectCgroupPathTrace pm := by
  cases pm <;> simp [detectCgroupPathTrace]

theorem main_fail_memlock (w : World) (p : Nat) (n : GoString) (err : String)
    (hm : w.removeMemlock = some err) :
    main w p n = ⟨[.removeMemlock, .fatalf (.failedToSetRlimit err)], some 1⟩ := by
  unfold main; simp only [hm]; rfl

theorem main_fail_load (w : World) (p : Nat) (n : GoString) (err : String)
    (hm : w.removeMemlock = none) (hl : w.loadObjects = .error err) :
    main w p n = ⟨[.removeMemlock, .loadObjects, .fatalf (.loadingObjects err)], some 1⟩ := by
  unfold main; simp only [hm, hl]; rfl

theorem main_fail_port (w : World) (p : Nat) (n : GoString) (objs : packetFilterObjects)
    (err : String) (hm : w.removeMemlock = none) (hl : w.loadObjects = .ok objs)
    (hp : w.portMapUpdate = some err) :
    main w p n = ⟨[.removeMemlock, .loadObjects, .portMapUpdate 0 (p % 2 ^ 32),
      .fatalf (.updatingPortMap err)], some 1⟩ := by
  unfold main; simp only [hm, hl, hp]; rfl

theorem main_fail_name (w : World) (p : Nat) (n : GoString) (objs : packetFilterObjects)
    (err : String) (hm : w.removeMemlock = none) (hl : w.loadObjects = .ok objs)
    (hp : w.portMapUpdate = none) (hn : w.processNameMapUpdate = some err) :
    main w p n = ⟨[.removeMemlock, .loadObjects, .portMapUpdate 0 (p % 2 ^ 32),
      .processNameMapUpdate 0 (strToCharArr n), .fatalf (.updatingProcessNameMap err)],
      some 1⟩ := by
  unfold main; simp only [hm, hl, hp, hn]; rfl

theorem main_fail_detect (w : World) (p : Nat) (n : GoString) (objs : packetFilterObjects)
    (err : String) (hm : w.removeMemlock = none) (hl : w.loadObjects = .ok objs)
    (hp : w.portMapUpdate = none) (hn : w.processNameMapUpdate = none)
    (hd : (detectCgroupPath w.procMounts).2 = some err) :
    main w p n = ⟨[.removeMemlock, .loadObjects, .portMapUpdate 0 (p % 2 ^ 32),
      .processNameMapUpdate 0 (strToCharArr n)] ++ detectCgroupPathTrace w.procMounts ++
      [.fatalf (.detectingCgroupPath err)], some 1⟩ := by
  obtain ⟨objs1, hu⟩ := updateMaps_ok objs p n
  cases hq : detectCgroupPath w.procMounts with
  | mk a b =>
    rw [hq] at hd
    simp only at hd
    subst hd
    unfold main
    simp only [hm, hl, hp, hn, hu, hq]
    rfl

theorem main_fail_attach (w : World) (p : Nat) (n : GoString) (objs : packetFilterObjects)
    (err : String) (hm : w.removeMemlock = none) (hl : w.loadObjects = .ok objs)
    (hp : w.portMapUpdate = none) (hn : w.processNameMapUpdate = none)
    (hd : (detectCgroupPath w.procMounts).2 = none) (ha : w.attachCgroup = some err) :
    main w p n = ⟨[.removeMemlock, .loadObjects, .portMapUpdate 0 (p % 2 ^ 32),
      .processNameMapUpdate 0 (strToCharArr n), .openProcMounts, .closeProcMounts,
      .attachCgroup (detectCgroupPath w.procMounts).1, .fatalf (.couldNotAttach err)],
      some 1⟩ := by
  obtain ⟨objs1, hu⟩ := updateMaps_ok objs p n
  have ht := detectCgroupPathTrace_ok w.procMounts hd
  cases hq : detectCgroupPath w.procMounts with
  | mk a b =>
    rw [hq] at hd
    simp only at hd
    subst hd
    unfold main
    simp only [hm, hl, hp, hn, hu, hq, ha, ht]
    rfl

theorem main_attached (w : World) (p : Nat) (n : GoString) (objs : packetFilterObjects)
    (hm : w.removeMemlock = none) (hl : w.loadObjects = .ok objs)
    (hp : w.portMapUpdate = none) (hn : w.processNameMapUpdate = none)
    (hd : (detectCgroupPath w.procMounts).2 = none) (ha : w.attachCgroup = none) :
    ∃ objs1, main w p n =
      if (handleSignals objs1 w.selectEvents).returned = true then
        ⟨[.removeMemlock, .loadObjects, .portMapUpdate 0 (p % 2 ^ 32),
          .processNameMapUpdate 0 (strToCharArr n), .openProcMounts, .closeProcMounts,
          .attachCgroup (detectCgroupPath w.procMounts).1,
          .printf (.attached (detectCgroupPath w.procMounts).1), .printf .pressCtrlC] ++
          (handleSignals objs1 w.selectEvents).trace ++ [.linkClose, .objsClose], some 0⟩
      else
        ⟨[.removeMemlock, .loadObjects, .portMapUpdate 0 (p % 2 ^ 32),
          .processNameMapUpdate 0 (strToCharArr n), .openProcMounts, .closeProcMounts,
          .attachCgroup (detectCgroupPath w.procMounts).1,
          .printf (.attached (detectCgroupPath w.procMounts).1), .printf .pressCtrlC] ++
          (handleSignals objs1 w.selectEvents).trace, none⟩ := by
  obtain ⟨objs1, hu⟩ := updateMaps_ok objs p n
  have ht := detectCgroupPathTrace_ok w.procMounts hd
  refine ⟨objs1, ?_⟩
  cases hq : detectCgroupPath w.procMounts with
  | mk a b =>
    rw [hq] at hd
    simp only at hd
    subst hd
    unfold main
    simp only [hm, hl, hp, hn, hu, hq, ha, ht]
    cases (handleSignals objs1 w.selectEvents).returned <;> simp

theorem startupOk_iff (w : World) :
    startupOk w = true ↔
      w.removeMemlock = none ∧ (∃ objs, w.loadObjects = .ok objs) ∧ w.portMapUpdate = none ∧
        w.processNameMapUpdate = none ∧ (detectCgroupPath w.procMounts).2 = none := by
  unfold startupOk
  simp only [Bool.and_eq_true, Option.isNone_iff_eq_none, and_assoc]
  have hl : w.loadObjects.isOk = true ↔ ∃ objs, w.loadObjects = .ok objs := by
    cases w.loadObjects <;> simp [Except.isOk, Except.toBool]
  rw [hl]

theorem main_trace_updateMaps (w : World) (objs : packetFilterObjects) (p : Nat) (n : GoString)
    (hm : w.removeMemlock = none) (hl : w.loadObjects = .ok objs) :
    ∃ rest, (main w p n).trace = [.removeMemlock, .loadObjects] ++
      (updateMaps objs p n w.portMapUpdate w.processNameMapUpdate).trace ++ rest := by
  unfold main
  simp only [hm, hl]
  split
  · exact ⟨[], by simp⟩
  · split
    · exact ⟨_, by simp; rfl⟩
    · split
      · exact ⟨_, by simp; rfl⟩
      · split
        · exact ⟨_, by simp; rfl⟩
        · exact ⟨_, by simp; rfl⟩

theorem handleSignals_no_release (objs : packetFilterObjects) (events : List SelectEvent) :
    ∀ e ∈ (handleSignals objs events).trace, isRelease e = false := by
  have hp : ∀ (o : packetFilterObjects), ∀ e ∈ printDropCount o, isRelease e = false := by
    intro o e he
    unfold printDropCount at he
    cases h : o.DropCounter.Lookup (toUint32 0) <;> simp only [h] at he <;>
      simp at he <;> rcases he with rfl | rfl <;> rfl
  have hs : ∀ e ∈ (selectLoop objs events).trace, isRelease e = false := by
    induction events with
    | nil => intro e he; simp [selectLoop] at he
    | cons ev rest ih =>
      intro e he
      cases ev with
      | tick dc =>
        simp only [selectLoop, List.mem_append] at he
        rcases he with h | h
        · exact hp _ e h
        · exact ih e h
      | stop =>
        simp [selectLoop] at he
        subst he; rfl
  intro e he
  unfold handleSignals at he
  simp only [List.mem_append] at he
  rcases he with (h | h) | h
  · simp at h
    rcases h with rfl | rfl <;> rfl
  · exact hs e h
  · cases hr : (selectLoop objs events).returned <;> simp [hr] at h
    subst h; rfl

/-- C6: the attach is attempted only when the five start-up stages (memlock
removal, object load, port-map write, process-name-map write, cgroup path
resolution) all succeeded, and then after them, in that order. When one of them
fails the process ends with status 1 on a fatal log as its last event, and no
attach is in its trace. With a readable mount table without a cgroup2 line and
the earlier stages succeeding, the run is exactly the four earlier stages, the
read of the mount table and the fatal "cgroup2 not mounted" log: nothing, in
particular no load and no attach, comes after the failure. -/
theorem main_attach_only_after_startup (w : World) (p : Nat) (n : GoString) :
    (startupOk w = true ↔
      w.removeMemlock = none ∧ (∃ objs, w.loadObjects = .ok objs) ∧ w.portMapUpdate = none ∧
        w.processNameMapUpdate = none ∧ (detectCgroupPath w.procMounts).2 = none) ∧
    (startupOk w = true →
      ∃ rest, (main w p n).trace =
        [.removeMemlock, .loadObjects, .portMapUpdate 0 (p % 2 ^ 32),
          .processNameMapUpdate 0 (strToCharArr n), .openProcMounts, .closeProcMounts,
          .attachCgroup (detectCgroupPath w.procMounts).1] ++ rest) ∧
    (startupOk w = false →
      (main w p n).exit = some 1 ∧
      (∀ path, Event.attachCgroup path ∉ (main w p n).trace) ∧
      ∃ pre msg, (main w p n).trace = pre ++ [.fatalf msg]) ∧
    ((∃ path, Event.attachCgroup path ∈ (main w p n).trace) ↔ startupOk w = true) ∧
    (∀ table : List GoString, w.removeMemlock = none → (∃ objs, w.loadObjects = .ok objs) →
      w.portMapUpdate = none → w.processNameMapUpdate = none → w.procMounts = .ok table →
      (∀ l ∈ table, fieldAt l 2 ≠ some cgroup2) →
      main w p n = ⟨[.removeMemlock, .loadObjects, .portMapUpdate 0 (p % 2 ^ 32),
        .processNameMapUpdate 0 (strToCharArr n), .openProcMounts, .closeProcMounts,
        .fatalf (.detectingCgroupPath notMounted)], some 1⟩) := by
  have hok : startupOk w = true →
      ∃ rest, (main w p n).trace =
        [.removeMemlock, .loadObjects, .portMapUpdate 0 (p % 2 ^ 32),
          .processNameMapUpdate 0 (strToCharArr n), .openProcMounts, .closeProcMounts,
          .attachCgroup (detectCgroupPath w.procMounts).1] ++ rest := by
    intro h
    obtain ⟨hm, ⟨objs, hl⟩, hp, hn, hd⟩ := (startupOk_iff w).mp h
    cases ha : w.attachCgroup with
    | some err =>
      rw [main_fail_attach w p n objs err hm hl hp hn hd ha]
      exact ⟨_, rfl⟩
    | none =>
      obtain ⟨objs1, e⟩ := main_attached w p n objs hm hl hp hn hd ha
      rw [e]
      cases (handleSignals objs1 w.selectEvents).returned
      · exact ⟨_, by simp only [Bool.false_eq_true, if_false, List.cons_append,
          List.nil_append]; rfl⟩
      · exact ⟨_, by simp only [if_true, List.cons_append, List.nil_append,
          List.append_assoc]; rfl⟩
  have hfail : startupOk w = false →
      (main w p n).exit = some 1 ∧
      (∀ path, Event.attachCgroup path ∉ (main w p n).trace) ∧
      ∃ pre msg, (main w p n).trace = pre ++ [.fatalf msg] := by
    intro h
    have hnot : ¬ startupOk w = true := by rw [h]; exact Bool.false_ne_true
    rw [startupOk_iff] at hnot
    cases hm : w.removeMemlock with
    | some err =>
      rw [main_fail_memlock w p n err hm]
      exact ⟨rfl, by intro path; simp, [.removeMemlock], _, rfl⟩
    | none =>
      cases hl : w.loadObjects with
      | error err =>
        rw [main_fail_load w p n err hm hl]
        exact ⟨rfl, by intro path; simp, [.removeMemlock, .loadObjects], _, rfl⟩
      | ok objs =>
        cases hp : w.portMapUpdate with
        | some err =>
          rw [main_fail_port w p n objs err hm hl hp]
          exact ⟨rfl, by intro path; simp, [.removeMemlock, .loadObjects, _], _, rfl⟩
        | none =>
          cases hn : w.processNameMapUpdate with
          | some err =>
            rw [main_fail_name w p n objs err hm hl hp hn]
            exact ⟨rfl, by intro path; simp, [.removeMemlock, .loadObjects, _, _], _, rfl⟩
          | none =>
            cases hd : (detectCgroupPath w.procMounts).2 with
            | none => exact absurd ⟨hm, ⟨objs, hl⟩, hp, hn, hd⟩ hnot
            | some err =>
              rw [main_fail_detect w p n objs err hm hl hp hn hd]
              refine ⟨rfl, ?_, _, _, rfl⟩
              intro path hmem
              simp only [List.mem_append, List.mem_cons, List.mem_singleton] at hmem
              rcases hmem with (hmem | hmem) | hmem
              · simp at hmem
              · exact attach_not_mem_detectTrace _ _ hmem
              · simp at hmem
  refine ⟨startupOk_iff w, hok, hfail, ⟨?_, ?_⟩, ?_⟩
  · rintro ⟨path, hmem⟩
    cases hs : startupOk w with
    | true => rfl
    | false => exact absurd hmem ((hfail hs).2.1 path)
  · intro h
    obtain ⟨rest, e⟩ := hok h
    exact ⟨(detectCgroupPath w.procMounts).1, by rw [e]; simp⟩
  · intro table hm hl hp hn hpm hno
    obtain ⟨objs, hl⟩ := hl
    have hd : detectCgroupPath w.procMounts = ([], some notMounted) := by
      rw [hpm]; exact scanLoop_no_match table hno
    have hd2 : (detectCgroupPath w.procMounts).2 = some notMounted := by rw [hd]
    rw [main_fail_detect w p n objs notMounted hm hl hp hn hd2, hpm]
    rfl

/-- C7: on a normal run of `main` (every start-up stage and the attach
succeeded, and a termination signal reached the supervision loop), `main`
returns with status 0 and the release operations of its trace are exactly one
release of the attachment handle (`l.Close`) followed by one release of the
loader-held handles (`objs.Close`): they are the last two events, after the
attach, and no release stands before them. -/
theorem main_normal_run_releases (w : World) (p : Nat) (n : GoString)
    (hstart : startupOk w = true) (hattach : w.attachCgroup = none)
    (hstop : w.selectEvents.any isStop = true) :
    (main w p n).exit = some 0 ∧
    (main w p n).trace.filter isRelease = [.linkClose, .objsClose] ∧
    (main w p n).trace.count .linkClose = 1 ∧
    (main w p n).trace.count .objsClose = 1 ∧
    ∃ pre, (main w p n).trace = pre ++ [.linkClose, .objsClose] ∧
      (∀ e ∈ pre, isRelease e = false) ∧
      Event.attachCgroup (detectCgroupPath w.procMounts).1 ∈ pre := by
  obtain ⟨hm, ⟨objs, hl⟩, hp, hn, hd⟩ := (startupOk_iff w).mp hstart
  obtain ⟨objs1, e⟩ := main_attached w p n objs hm hl hp hn hd hattach
  have hret : (handleSignals objs1 w.selectEvents).returned = true := by
    rw [(handleSignals_spec objs1 w.selectEvents).2.1]; exact hstop
  rw [if_pos hret] at e
  have hrel := handleSignals_no_release objs1 w.selectEvents
  have hpre : ∀ e ∈ [Event.removeMemlock, .loadObjects, .portMapUpdate 0 (p % 2 ^ 32),
      .processNameMapUpdate 0 (strToCharArr n), .openProcMounts, .closeProcMounts,
      .attachCgroup (detectCgroupPath w.procMounts).1,
      .printf (.attached (detectCgroupPath w.procMounts).1), .printf .pressCtrlC] ++
      (handleSignals objs1 w.selectEvents).trace, isRelease e = false := by
    intro x hx
    rcases List.mem_append.mp hx with h | h
    · simp only [List.mem_cons, List.mem_singleton, List.not_mem_nil, or_false] at h
      rcases h with rfl | rfl | rfl | rfl | rfl | rfl | rfl | rfl | rfl <;> rfl
    · exact hrel x h
  have hfilter : ∀ (pre : List Event), (∀ x ∈ pre, isRelease x = false) →
      (pre ++ [Event.linkClose, Event.objsClose]).filter isRelease =
        [.linkClose, .objsClose] := by
    intro pre h
    rw [List.filter_append, List.filter_eq_nil_iff.mpr (fun x hx => by simp [h x hx])]
    rfl
  have hcount : ∀ (pre : List Event) (r : Event), isRelease r = true →
      (∀ x ∈ pre, isRelease x = false) → pre.count r = 0 := by
    intro pre r hr h
    rw [List.count_eq_zero]
    intro hmem
    rw [h r hmem] at hr
    exact Bool.false_ne_true hr
  rw [e]
  refine ⟨rfl, hfilter _ hpre, ?_, ?_, _, rfl, hpre, by simp⟩
  · rw [List.count_append, hcount _ Event.linkClose rfl hpre]; rfl
  · rw [List.count_append, hcount _ Event.objsClose rfl hpre]; rfl

theorem main_normal_run_releases_witness :
    startupOk sampleWorld = true ∧ sampleWorld.attachCgroup = none ∧
    sampleWorld.selectEvents.any isStop = true ∧
    (main sampleWorld 4040 (goString "go")).exit = some 0 ∧
    (main sampleWorld 4040 (goString "go")).trace.filter isRelease =
      [.linkClose, .objsClose] :=
  ⟨rfl, rfl, rfl,
    (main_normal_run_releases sampleWorld 4040 (goString "go") rfl rfl rfl).1,
    (main_normal_run_releases sampleWorld 4040 (goString "go") rfl rfl rfl).2.1⟩

/-- C10: for every port value `portNum` of the command-line word, the value
`updateMaps` writes to key 0 of the port map is `portNum mod 2^32`, and `main`
hands `portNum` over without any range check: `2^32 + k` is published as `k`
(`2^32 + 80` as 80), and a value between 65536 and `2^32 - 1` is published
unchanged (70000 as 70000). -/
theorem updateMaps_port_mod (objs : packetFilterObjects) (portNum : Nat) (n : GoString)
    (pv nv : Option String) :
    (updateMaps objs portNum n pv nv).trace.head? =
        some (.portMapUpdate 0 (portNum % 2 ^ 32)) ∧
    (∀ objs1, (updateMaps objs portNum n pv nv).result = some objs1 →
      objs1.PortMap.Lookup 0 = .ok (portNum % 2 ^ 32)) ∧
    (∀ k, portNum = 2 ^ 32 + k → k < 2 ^ 32 →
      (updateMaps objs portNum n pv nv).trace.head? = some (.portMapUpdate 0 k)) ∧
    (65535 < portNum → portNum < 2 ^ 32 →
      (updateMaps objs portNum n pv nv).trace.head? = some (.portMapUpdate 0 portNum)) ∧
    (∀ w : World, w.removeMemlock = none → w.loadObjects = .ok objs →
      (main w portNum n).trace.take 3 =
        [.removeMemlock, .loadObjects, .portMapUpdate 0 (portNum % 2 ^ 32)]) ∧
    (updateMaps objs (2 ^ 32 + 80) n pv nv).trace.head? = some (.portMapUpdate 0 80) ∧
    (updateMaps objs 70000 n pv nv).trace.head? = some (.portMapUpdate 0 70000) := by
  have hhead := updateMaps_trace_head objs portNum n pv nv
  refine ⟨hhead, ?_, ?_, ?_, ?_, updateMaps_trace_head objs (2 ^ 32 + 80) n pv nv,
    updateMaps_trace_head objs 70000 n pv nv⟩
  · intro objs1 h
    exact (updateMaps_result objs portNum n pv nv objs1 h).2.2.1
  · intro k hk hlt
    rw [hhead, hk, Nat.add_mod, Nat.mod_self, Nat.zero_add, Nat.mod_mod, Nat.mod_eq_of_lt hlt]
  · intro _ hlt
    rw [hhead, Nat.mod_eq_of_lt hlt]
  · intro w hm hl
    have h := updateMaps_trace_head objs portNum n w.portMapUpdate w.processNameMapUpdate
    obtain ⟨rest, e⟩ := main_trace_updateMaps w objs portNum n hm hl
    rw [e]
    cases hu : (updateMaps objs portNum n w.portMapUpdate w.processNameMapUpdate).trace with
    | nil => rw [hu] at h; simp at h
    | cons x tl =>
      rw [hu] at h
      simp only [List.head?_cons, Option.some.injEq] at h
      subst h
      rfl

end PacketFilter
